import Mathlib

/-!
Verification of the NanoRange pipeline editor core.

The definitions below are a shallow embedding of the TypeScript sources:
- `frontend/src/app/components/pipeline/types.ts` (data model),
- `frontend/src/app/components/pipeline/utils/connectionUtils.ts`,
- the three variants of `usePipeline` (the `hooks/usePipeline.ts` file and
  the two unnamed variants), and
- the pure status-mapping fragment of the polling loop.

JavaScript records (`Record<string, T>`) are modelled as association lists
with at most one binding per key, updated with JS assignment semantics.
JS `undefined` is modelled with `Option` (for record lookups and optional
fields) and with an explicit `Value.vUndefined` where the source stores
`undefined` inside a binding.
-/

/-- The closed enumeration of port data types from `pipeline/types.ts`. -/
inductive DataType where
  | IMAGE
  | MASK
  | FLOAT
  | INT
  | STRING
  | BOOL
  | LIST
  | DICT
  | PATH
  | ARRAY
  | MEASUREMENTS
  | PARAMETERS
  | INSTRUCTIONS
deriving DecidableEq, Repr, Fintype

/-- Opaque JS values as far as the editor inspects them: it only ever
compares a stored value against `undefined` and against the empty string. -/
inductive Value where
  | vUndefined
  | vStr (s : String)
  | vInt (n : Int)
  | vBool (b : Bool)
deriving DecidableEq, Repr

/-- The `NodeInputValue` tagged union from `pipeline/types.ts`. -/
inductive NodeInputValue where
  | static (value : Value)
  | connection (sourceNodeId : String) (sourceOutput : String)
  | user_input (value : Value)
deriving DecidableEq, Repr

structure ToolInput where
  name : String
  type : DataType
  required : Bool
  default : Option Value
deriving DecidableEq, Repr

structure ToolOutput where
  name : String
  type : DataType
deriving DecidableEq, Repr

structure ToolDefinition where
  id : String
  name : String
  category : String
  inputs : List ToolInput
  outputs : List ToolOutput
deriving DecidableEq, Repr

structure Position where
  x : Int
  y : Int
deriving DecidableEq, Repr

/-- A JS object used as a string-keyed map: assignment replaces the existing
binding for the key or appends a fresh one. -/
def recordSet {α : Type} (r : List (String × α)) (k : String) (v : α) :
    List (String × α) :=
  if r.any (fun kv => kv.1 == k) then
    r.map (fun kv => if kv.1 == k then (k, v) else kv)
  else
    r ++ [(k, v)]

/-- JS property read: `undefined` when the key is absent. -/
def recordGet {α : Type} (r : List (String × α)) (k : String) : Option α :=
  (r.find? (fun kv => kv.1 == k)).map (fun kv => kv.2)

structure PipelineNode where
  id : String
  toolId : String
  tool : ToolDefinition
  position : Position
  inputs : List (String × NodeInputValue)
deriving DecidableEq, Repr

structure PipelineEdge where
  id : String
  sourceNodeId : String
  sourceOutput : String
  targetNodeId : String
  targetInput : String
deriving DecidableEq, Repr

structure Pipeline where
  id : String
  name : String
  nodes : List PipelineNode
  edges : List PipelineEdge
deriving DecidableEq, Repr

/-! ## connectionUtils.ts -/

def CONNECTABLE_TYPES : List DataType := [.IMAGE, .MASK, .ARRAY]

def isConnectableType (t : DataType) : Bool := CONNECTABLE_TYPES.contains t

def getPrimaryConnectableInput (tool : ToolDefinition) : Option ToolInput :=
  tool.inputs.find? (fun input => isConnectableType input.type)

def getPrimaryConnectableOutput (tool : ToolDefinition) : Option ToolOutput :=
  tool.outputs.find? (fun output => isConnectableType output.type)

inductive SatisfactionStatus where
  | satisfied
  | unsatisfied
  | optional
deriving DecidableEq, Repr

/-- Source `getInputSatisfactionStatus` from `connectionUtils.ts`. -/
def getInputSatisfactionStatus (input : ToolInput)
    (nodeInputValue : Option NodeInputValue)
    (inputConnections : List PipelineEdge) (inputName : String) :
    SatisfactionStatus :=
  if inputConnections.any (fun e => e.targetInput == inputName) then
    .satisfied
  else if (match nodeInputValue with
           | some (.connection _ _) => true
           | _ => false) then
    .satisfied
  else if (match nodeInputValue with
           | some (.static v) => v != Value.vUndefined && v != Value.vStr ""
           | _ => false) then
    .satisfied
  else if input.default.isSome then
    .satisfied
  else if !input.required then
    .optional
  else
    .unsatisfied

/-- Source `areAllRequiredInputsSatisfied` from `connectionUtils.ts`. -/
def areAllRequiredInputsSatisfied (tool : ToolDefinition)
    (nodeInputs : List (String × NodeInputValue))
    (inputConnections : List PipelineEdge) : Bool :=
  tool.inputs.all (fun input =>
    getInputSatisfactionStatus input (recordGet nodeInputs input.name)
      inputConnections input.name != SatisfactionStatus.unsatisfied)

/-- Source `areTypesCompatible` from `connectionUtils.ts`. -/
def areTypesCompatible (outputType inputType : DataType) : Bool :=
  if outputType == inputType then true
  else
    let imageTypes : List DataType := [.IMAGE, .MASK, .ARRAY]
    if imageTypes.contains outputType && imageTypes.contains inputType then true
    else
      let numericTypes : List DataType := [.FLOAT, .INT]
      if numericTypes.contains outputType && numericTypes.contains inputType then
        true
      else false

/-- The fields of an edge other than its generated `id`
(`Omit<PipelineEdge, id>` in the source). -/
structure EdgeSpec where
  sourceNodeId : String
  sourceOutput : String
  targetNodeId : String
  targetInput : String
deriving DecidableEq, Repr

/-! ## `hooks/usePipeline.ts`

The React hook closes over the current pipeline state; each operation is
modelled as a function of that state. Randomly generated node/edge ids are
passed in as parameters. Operations whose only effect is a state update
return the new `Pipeline`; `addEdge`, which returns the generated edge id or
`null` in the source, returns the new state in an `Option` (a `none` result
is the source's early `return null`, which performs no `setPipeline`). -/

namespace UsePipeline

/-- Source `addNode` from `hooks/usePipeline.ts` (the fresh node id is
supplied). -/
def addNode (p : Pipeline) (nodeId : String) (tool : ToolDefinition)
    (position : Position) : Pipeline :=
  let inputs := tool.inputs.foldl
    (fun acc input =>
      match input.default with
      | some d => recordSet acc input.name (NodeInputValue.static d)
      | none => acc) []
  { p with
    nodes := p.nodes ++ [{ id := nodeId, toolId := tool.id, tool := tool,
                           position := position, inputs := inputs }] }

/-- Source `removeNode` from `hooks/usePipeline.ts`. -/
def removeNode (p : Pipeline) (nodeId : String) : Pipeline :=
  { p with
    nodes := p.nodes.filter (fun n => !(n.id == nodeId)),
    edges := p.edges.filter
      (fun e => !(e.sourceNodeId == nodeId) && !(e.targetNodeId == nodeId)) }

/-- Source `updateNodeInput` from `hooks/usePipeline.ts`. -/
def updateNodeInput (p : Pipeline) (nodeId : String) (inputName : String)
    (value : NodeInputValue) : Pipeline :=
  { p with
    nodes := p.nodes.map (fun n =>
      if n.id == nodeId then
        { n with inputs := recordSet n.inputs inputName value }
      else n) }

/-- Source `canConnect` from `hooks/usePipeline.ts`. -/
def canConnect (p : Pipeline) (sourceNodeId sourceOutput targetNodeId
    targetInput : String) : Bool :=
  if sourceNodeId == targetNodeId then false
  else if (p.edges.find? (fun e =>
      e.targetNodeId == targetNodeId && e.targetInput == targetInput)).isSome
    then false
  else
    match p.nodes.find? (fun n => n.id == sourceNodeId),
          p.nodes.find? (fun n => n.id == targetNodeId) with
    | some sourceNode, some targetNode =>
      match sourceNode.tool.outputs.find? (fun o => o.name == sourceOutput),
            targetNode.tool.inputs.find? (fun i => i.name == targetInput) with
      | some output, some input =>
        output.type == input.type || input.type == DataType.PARAMETERS
      | _, _ => false
    | _, _ => false

/-- Source `addEdge` from `hooks/usePipeline.ts` (the fresh edge id is
supplied). -/
def addEdge (p : Pipeline) (edgeId : String) (edge : EdgeSpec) :
    Option Pipeline :=
  if canConnect p edge.sourceNodeId edge.sourceOutput edge.targetNodeId
      edge.targetInput then
    let newEdge : PipelineEdge :=
      { id := edgeId, sourceNodeId := edge.sourceNodeId,
        sourceOutput := edge.sourceOutput, targetNodeId := edge.targetNodeId,
        targetInput := edge.targetInput }
    let p1 := { p with edges := p.edges ++ [newEdge] }
    some (updateNodeInput p1 edge.targetNodeId edge.targetInput
      (NodeInputValue.connection edge.sourceNodeId edge.sourceOutput))
  else none

/-- Source `removeEdge` from `hooks/usePipeline.ts`. -/
def removeEdge (p : Pipeline) (edgeId : String) : Pipeline :=
  let p1 :=
    match p.edges.find? (fun e => e.id == edgeId) with
    | some edge =>
      updateNodeInput p edge.targetNodeId edge.targetInput
        (NodeInputValue.static Value.vUndefined)
    | none => p
  { p1 with edges := p1.edges.filter (fun e => !(e.id == edgeId)) }

/-- Source `removeEdgesForNode` from `hooks/usePipeline.ts`. -/
def removeEdgesForNode (p : Pipeline) (nodeId : String) : Pipeline :=
  { p with
    edges := p.edges.filter
      (fun e => !(e.sourceNodeId == nodeId) && !(e.targetNodeId == nodeId)) }

end UsePipeline

/-! ## The `usePipeline` variant with the simplified primary-port
connection model (it delegates type checking to `areTypesCompatible`). -/

namespace Part002

/-- The simplified `canConnect (sourceNodeId, targetNodeId)`. -/
def canConnect (p : Pipeline) (sourceNodeId targetNodeId : String) : Bool :=
  if sourceNodeId == targetNodeId then false
  else
    match p.nodes.find? (fun n => n.id == sourceNodeId),
          p.nodes.find? (fun n => n.id == targetNodeId) with
    | some sourceNode, some targetNode =>
      match getPrimaryConnectableOutput sourceNode.tool,
            getPrimaryConnectableInput targetNode.tool with
      | some primaryOutput, some primaryInput =>
        if (p.edges.find? (fun e =>
            e.targetNodeId == targetNodeId &&
            e.targetInput == primaryInput.name)).isSome then false
        else areTypesCompatible primaryOutput.type primaryInput.type
      | _, _ => false
    | _, _ => false

/-- The status-mapping ternary inside `pollStatus`
(`completed ↦ success`, `failed ↦ error`, anything else ↦ `running`). -/
def mapBackendStatus (status : String) : String :=
  if status == "completed" then "success"
  else if status == "failed" then "error"
  else "running"

end Part002

/-! ## The `usePipeline` variant whose `canConnect` falls through to
`return true` ("For UI flexibility, allow connections - backend will
validate"). -/

namespace Part003

/-- Source `canConnect` from the part_003 variant; the trailing type-group checks
are kept although every fall-through path returns `true`. -/
def canConnect (p : Pipeline) (sourceNodeId sourceOutput targetNodeId
    targetInput : String) : Bool :=
  if sourceNodeId == targetNodeId then false
  else if (p.edges.find? (fun e =>
      e.targetNodeId == targetNodeId && e.targetInput == targetInput)).isSome
    then false
  else
    match p.nodes.find? (fun n => n.id == sourceNodeId),
          p.nodes.find? (fun n => n.id == targetNodeId) with
    | some sourceNode, some targetNode =>
      match sourceNode.tool.outputs.find? (fun o => o.name == sourceOutput),
            targetNode.tool.inputs.find? (fun i => i.name == targetInput) with
      | some output, some input =>
        let imageTypes : List DataType := [.IMAGE, .MASK, .ARRAY]
        let numericTypes : List DataType := [.FLOAT, .INT]
        let anyTypes : List DataType := [.PARAMETERS, .INSTRUCTIONS]
        if output.type == input.type then true
        else if anyTypes.contains input.type then true
        else if imageTypes.contains output.type &&
                imageTypes.contains input.type then true
        else if numericTypes.contains output.type &&
                numericTypes.contains input.type then true
        else true
      | _, _ => false
    | _, _ => false

end Part003

/-! ## Polling: backend API types (`services` API types file) and the pure
result-mapping fragment of `pollStatus` in the part_002 variant. -/

/-- Backend `IterationData` (snake_case API fields); the `decision` and
`artifacts` payloads are copied verbatim by the frontend, so they are kept
opaque. -/
structure IterationData where
  iteration : Nat
  inputs : List (String × Value)
  outputs : List (String × Value)
  duration_seconds : Option Value
  decision : Option Value
  artifacts : Option (List (String × String))
deriving DecidableEq, Repr

/-- Backend `StepResultData`. -/
structure StepResultData where
  step_id : String
  step_name : String
  status : String
  outputs : Option (List (String × Value))
  error_message : Option String
  iterations : Option (List IterationData)
  final_iteration : Option Nat
deriving DecidableEq, Repr

/-- Frontend `IterationResult` (camelCase fields). -/
structure IterationResult where
  iteration : Nat
  inputs : List (String × Value)
  outputs : List (String × Value)
  durationSeconds : Option Value
  decision : Option Value
  artifacts : Option (List (String × String))
deriving DecidableEq, Repr

/-- Frontend `NodeExecutionResult`. -/
structure NodeExecutionResult where
  stepId : String
  stepName : String
  status : String
  outputs : List (String × Value)
  errorMessage : Option String
  iterations : Option (List IterationResult)
  finalIteration : Option Nat
deriving DecidableEq, Repr

namespace Part002

/-- The per-iteration field mapping inside `pollStatus`
(`iterations?.map(iter => ...)`). -/
def convertIteration (iter : IterationData) : IterationResult :=
  { iteration := iter.iteration, inputs := iter.inputs,
    outputs := iter.outputs, durationSeconds := iter.duration_seconds,
    decision := iter.decision, artifacts := iter.artifacts }

/-- The per-step entry built by `pollStatus` for `nodeResults[step_id]`. -/
def convertStep (sr : StepResultData) : NodeExecutionResult :=
  { stepId := sr.step_id, stepName := sr.step_name, status := sr.status,
    outputs := sr.outputs.getD [], errorMessage := sr.error_message,
    iterations := sr.iterations.map (List.map convertIteration),
    finalIteration := sr.final_iteration }

/-- The `nodeResults` record built by the `for` loop in `pollStatus`
(later assignments to the same `step_id` overwrite earlier ones). -/
def buildNodeResults (stepResults : List StepResultData) :
    List (String × NodeExecutionResult) :=
  stepResults.foldl
    (fun acc sr => recordSet acc sr.step_id (convertStep sr)) []

end Part002

/-! ## Executor run order

Modelled from the spec: the Executor (the backend Python engine's
topological scheduler) is not part of the sources under `src/`; §4.4 of the
spec describes it as Kahn-style scheduling — "maintain the Kahn-style
ready set; whenever a node completes, decrement the in-degree of its
dependents and move any that reach zero into the ready set". Nodes are
identified by id; edges are (producer, consumer) pairs. Each round runs the
whole ready set (nodes of remaining in-degree zero) and then recomputes it;
the emitted list is the run order, ready-set wave by ready-set wave. -/

namespace ExecutorModel

/-- Modelled from the spec: a node is ready when no edge into it comes from
a node that has not yet completed (its remaining in-degree is zero). -/
def isReady (edges : List (String × String)) (remaining : List String)
    (n : String) : Bool :=
  edges.all (fun e => !(e.2 == n && remaining.contains e.1))

/-- Modelled from the spec: the ready set of the not-yet-run nodes. -/
def readySet (edges : List (String × String)) (remaining : List String) :
    List String :=
  remaining.filter (isReady edges remaining)

/-- Modelled from the spec: run ready waves until no node is ready
(fuel-bounded; `nodes.length` rounds always suffice). -/
def kahnRun (edges : List (String × String)) :
    Nat → List String → List String
  | 0, _ => []
  | fuel + 1, remaining =>
    let ready := readySet edges remaining
    if ready.isEmpty then []
    else ready ++ kahnRun edges fuel
      (remaining.filter (fun n => !(ready.contains n)))

/-- Modelled from the spec: the Executor's run order for a pipeline given as
node ids plus (producer, consumer) edges. -/
def executionOrder (nodes : List String) (edges : List (String × String)) :
    List String :=
  kahnRun edges nodes.length nodes

end ExecutorModel

/-! ## Record and find? helper lemmas -/

theorem recordGet_set_self {α : Type} (r : List (String × α)) (k : String)
    (v : α) : recordGet (recordSet r k v) k = some v := by
  unfold recordSet recordGet
  by_cases h : r.any (fun kv => kv.1 == k) = true
  · rw [if_pos h]
    induction r with
    | nil => simp at h
    | cons kv r ih =>
      cases hk : (kv.1 == k) with
      | true => simp [List.find?, hk]
      | false =>
        have h2 : r.any (fun kv => kv.1 == k) = true := by
          simpa [List.any_cons, hk] using h
        simpa [List.find?, hk] using ih h2
  · rw [if_neg h]
    induction r with
    | nil => simp [List.find?]
    | cons kv r ih =>
      cases hk : (kv.1 == k) with
      | true => exact absurd (by simp [List.any_cons, hk]) h
      | false =>
        have h3 : ¬(r.any (fun kv => kv.1 == k) = true) := fun hcon =>
          h (by simp [List.any_cons, hcon])
        simpa [List.find?, hk] using ih h3

theorem recordGet_set_ne {α : Type} (r : List (String × α)) (k k' : String)
    (v : α) (hne : k' ≠ k) :
    recordGet (recordSet r k v) k' = recordGet r k' := by
  have hkk' : (k == k') = false := by
    simp only [beq_eq_false_iff_ne, ne_eq]
    exact fun hcon => hne hcon.symm
  unfold recordSet recordGet
  by_cases h : r.any (fun kv => kv.1 == k) = true
  · rw [if_pos h]
    clear h
    induction r with
    | nil => rfl
    | cons kv r ih =>
      cases hk : (kv.1 == k) with
      | true =>
        have hkv' : (kv.1 == k') = false := by
          rw [beq_iff_eq] at hk
          rw [hk]
          exact hkk'
        simpa [List.find?, hk, hkv', hkk'] using ih
      | false =>
        cases hk' : (kv.1 == k') with
        | true => simp [List.find?, hk, hk']
        | false => simpa [List.find?, hk, hk'] using ih
  · rw [if_neg h]
    clear h
    induction r with
    | nil => simp [List.find?, hkk']
    | cons kv r ih =>
      cases hk' : (kv.1 == k') with
      | true => simp [List.find?, hk', List.cons_append]
      | false => simpa [List.find?, hk', List.cons_append] using ih

/-- Looking up the updated node id after the node-map of `updateNodeInput`
returns the updated node. -/
theorem find?_update_nodes (l : List PipelineNode) (nid iname : String)
    (v : NodeInputValue) :
    (l.map (fun n => if n.id == nid
        then { n with inputs := recordSet n.inputs iname v } else n)).find?
        (fun n => n.id == nid) =
      (l.find? (fun n => n.id == nid)).map
        (fun n => { n with inputs := recordSet n.inputs iname v }) := by
  induction l with
  | nil => rfl
  | cons n l ih =>
    cases hk : (n.id == nid) with
    | true => simp [List.find?, hk]
    | false => simpa [List.find?, hk] using ih

theorem updateNodeInput_find?_self (p : Pipeline) (nid iname : String)
    (v : NodeInputValue) :
    (UsePipeline.updateNodeInput p nid iname v).nodes.find?
        (fun n => n.id == nid) =
      (p.nodes.find? (fun n => n.id == nid)).map
        (fun n => { n with inputs := recordSet n.inputs iname v }) :=
  find?_update_nodes p.nodes nid iname v

/-! ## Structural facts about the hook `canConnect` -/

/-- A connection to an already-occupied target input port is rejected. -/
theorem canConnect_false_of_existing {p : Pipeline} {s so t ti : String}
    (h : ∃ e ∈ p.edges, e.targetNodeId = t ∧ e.targetInput = ti) :
    UsePipeline.canConnect p s so t ti = false := by
  obtain ⟨e, hmem, h1, h2⟩ := h
  have hsome : (p.edges.find? (fun e =>
      e.targetNodeId == t && e.targetInput == ti)).isSome = true := by
    rw [List.find?_isSome]
    exact ⟨e, hmem, by simp [h1, h2]⟩
  unfold UsePipeline.canConnect
  by_cases hst : (s == t) = true
  · simp [hst]
  · simp [hst, hsome]

/-- An accepted connection's target input port is free. -/
theorem canConnect_true_no_existing {p : Pipeline} {s so t ti : String}
    (h : UsePipeline.canConnect p s so t ti = true) :
    ∀ e ∈ p.edges, ¬(e.targetNodeId = t ∧ e.targetInput = ti) := by
  intro e hmem hcon
  rw [canConnect_false_of_existing ⟨e, hmem, hcon⟩] at h
  exact Bool.false_ne_true h

/-- An accepted connection's endpoints and ports exist. -/
theorem canConnect_true_wf {p : Pipeline} {s so t ti : String}
    (h : UsePipeline.canConnect p s so t ti = true) :
    (∃ sn ∈ p.nodes, sn.id = s ∧ ∃ o ∈ sn.tool.outputs, o.name = so) ∧
    (∃ tn ∈ p.nodes, tn.id = t ∧ ∃ i ∈ tn.tool.inputs, i.name = ti) := by
  unfold UsePipeline.canConnect at h
  split at h
  · exact absurd h (by simp)
  · split at h
    · exact absurd h (by simp)
    · split at h
      case _ sn tn hsn htn =>
        split at h
        case _ o i ho hi =>
          have h1 := List.find?_some hsn
          have h2 := List.find?_some ho
          have h3 := List.find?_some htn
          have h4 := List.find?_some hi
          simp only [beq_iff_eq] at h1 h2 h3 h4
          exact ⟨⟨sn, List.mem_of_find?_eq_some hsn, h1,
                  o, List.mem_of_find?_eq_some ho, h2⟩,
                 tn, List.mem_of_find?_eq_some htn, h3,
                 i, List.mem_of_find?_eq_some hi, h4⟩
        all_goals exact absurd h (by simp)
      all_goals exact absurd h (by simp)

/-- The shape of a successful `addEdge`. -/
theorem addEdge_eq_some {p p' : Pipeline} {eid : String} {es : EdgeSpec}
    (h : UsePipeline.addEdge p eid es = some p') :
    UsePipeline.canConnect p es.sourceNodeId es.sourceOutput es.targetNodeId
      es.targetInput = true ∧
    p' = UsePipeline.updateNodeInput
      { p with edges := p.edges ++
          [{ id := eid, sourceNodeId := es.sourceNodeId,
             sourceOutput := es.sourceOutput, targetNodeId := es.targetNodeId,
             targetInput := es.targetInput }] }
      es.targetNodeId es.targetInput
      (NodeInputValue.connection es.sourceNodeId es.sourceOutput) := by
  unfold UsePipeline.addEdge at h
  split at h
  case _ hcc => exact ⟨hcc, (Option.some.inj h).symm⟩
  case _ => exact absurd h (by simp)

/-- A self-connection is always rejected by the hook `canConnect`. -/
theorem canConnect_self (p : Pipeline) (nid so ti : String) :
    UsePipeline.canConnect p nid so nid ti = false := by
  simp [UsePipeline.canConnect]

/-! ## Concrete fixtures for witnesses and counterexamples -/

/-- A tool with one required IMAGE input and one IMAGE output. -/
def toolImgImg : ToolDefinition :=
  { id := "t_img", name := "Img", category := "preprocessing",
    inputs := [{ name := "img", type := .IMAGE, required := true,
                 default := none }],
    outputs := [{ name := "out", type := .IMAGE }] }

/-- A tool with one required PARAMETERS input and one required INSTRUCTIONS
input. -/
def toolCtl : ToolDefinition :=
  { id := "t_ctl", name := "Ctl", category := "vlm",
    inputs := [{ name := "params", type := .PARAMETERS, required := true,
                 default := none },
               { name := "instr", type := .INSTRUCTIONS, required := true,
                 default := none }],
    outputs := [{ name := "out", type := .DICT }] }

/-- A tool with one required MASK input and a STRING output. -/
def toolMaskStr : ToolDefinition :=
  { id := "t_mask", name := "MaskStr", category := "measurement",
    inputs := [{ name := "mask", type := .MASK, required := true,
                 default := none }],
    outputs := [{ name := "str_out", type := .STRING }] }

def mkNode (nid : String) (tool : ToolDefinition) : PipelineNode :=
  { id := nid, toolId := tool.id, tool := tool,
    position := { x := 0, y := 0 }, inputs := [] }

/-- Two unconnected nodes: an IMAGE producer `a` and `b` with PARAMETERS
and INSTRUCTIONS inputs. -/
def pipeCtl : Pipeline :=
  { id := "pipeline_1", name := "New Pipeline",
    nodes := [mkNode "a" toolImgImg, mkNode "b" toolCtl], edges := [] }

/-- Two unconnected nodes: an IMAGE producer `a` and a MASK consumer `b`. -/
def pipeImgMask : Pipeline :=
  { id := "pipeline_1", name := "New Pipeline",
    nodes := [mkNode "a" toolImgImg, mkNode "b" toolMaskStr], edges := [] }

/-- An edge `a.out → b.img` between the two IMAGE nodes. -/
def edgeAB : PipelineEdge :=
  { id := "edge_1", sourceNodeId := "a", sourceOutput := "out",
    targetNodeId := "b", targetInput := "img" }

/-- Two IMAGE nodes with no edges. -/
def pipeFree : Pipeline :=
  { id := "pipeline_1", name := "New Pipeline",
    nodes := [mkNode "a" toolImgImg, mkNode "b" toolImgImg], edges := [] }

/-- Two IMAGE nodes already connected by `edgeAB`. -/
def pipeConnected : Pipeline :=
  { id := "pipeline_1", name := "New Pipeline",
    nodes := [mkNode "a" toolImgImg, mkNode "b" toolImgImg],
    edges := [edgeAB] }

/-- The result of adding `edgeAB` to `pipeFree` through the hook `addEdge`:
the edge is appended and node `b`'s `img` binding becomes a connection. -/
def pipeFreeAfter : Pipeline :=
  { id := "pipeline_1", name := "New Pipeline",
    nodes := [mkNode "a" toolImgImg,
      { mkNode "b" toolImgImg with
        inputs := [("img", NodeInputValue.connection "a" "out")] }],
    edges := [edgeAB] }

/-! ## C1 -/

/-- C1: `areTypesCompatible` returns true exactly on equal types, on pairs
inside {IMAGE, MASK, ARRAY}, and on pairs inside {INT, FLOAT}; every other
pair whose input type is neither PARAMETERS nor INSTRUCTIONS is rejected —
in particular FLOAT → IMAGE is incompatible and INT → FLOAT compatible. -/
theorem c1_type_compatibility_table : ∀ o i : DataType,
    ((o = i ∨
      ((o = .IMAGE ∨ o = .MASK ∨ o = .ARRAY) ∧
       (i = .IMAGE ∨ i = .MASK ∨ i = .ARRAY)) ∨
      ((o = .INT ∨ o = .FLOAT) ∧ (i = .INT ∨ i = .FLOAT))) →
      areTypesCompatible o i = true) ∧
    (¬(o = i ∨
      ((o = .IMAGE ∨ o = .MASK ∨ o = .ARRAY) ∧
       (i = .IMAGE ∨ i = .MASK ∨ i = .ARRAY)) ∨
      ((o = .INT ∨ o = .FLOAT) ∧ (i = .INT ∨ i = .FLOAT))) →
      ¬(i = .PARAMETERS) → ¬(i = .INSTRUCTIONS) →
      areTypesCompatible o i = false) ∧
    areTypesCompatible .FLOAT .IMAGE = false ∧
    areTypesCompatible .INT .FLOAT = true := by
  decide

/-- Witness for C1 at a concrete pair: INT → FLOAT is accepted. -/
theorem c1_type_compatibility_table_witness :
    areTypesCompatible .INT .FLOAT = true :=
  (c1_type_compatibility_table .INT .FLOAT).1
    (Or.inr (Or.inr ⟨Or.inl rfl, Or.inr rfl⟩))

/-! ## C2 -/

/-- C2 as stated is false: `areTypesCompatible` — the repository's
type-compatibility check — rejects a FLOAT output feeding a PARAMETERS
input, and the hook `canConnect` rejects an IMAGE output feeding an
INSTRUCTIONS input even with both nodes and ports present and the port
free. -/
theorem c2_counterexample :
    areTypesCompatible .FLOAT .PARAMETERS = false ∧
    areTypesCompatible .FLOAT .INSTRUCTIONS = false ∧
    UsePipeline.canConnect pipeCtl "a" "out" "b" "instr" = false := by
  decide

/-- C2 amended: the universal acceptance is implemented elsewhere — given
both nodes and ports exist, the target port is free and the connection is
not a self-loop, the hook `canConnect` accepts any output type into a
PARAMETERS input (but not INSTRUCTIONS), the part_003 `canConnect` accepts
any output type into both PARAMETERS and INSTRUCTIONS inputs, while
`areTypesCompatible` itself accepts such inputs only on an exact type
match. -/
theorem c2_amended_universal_inputs :
    (∀ (p : Pipeline) (s so t ti : String) (sn tn : PipelineNode)
       (o : ToolOutput) (i : ToolInput),
      (s == t) = false →
      p.edges.find? (fun e =>
        e.targetNodeId == t && e.targetInput == ti) = none →
      p.nodes.find? (fun n => n.id == s) = some sn →
      p.nodes.find? (fun n => n.id == t) = some tn →
      sn.tool.outputs.find? (fun o2 => o2.name == so) = some o →
      tn.tool.inputs.find? (fun i2 => i2.name == ti) = some i →
      (i.type = DataType.PARAMETERS →
        UsePipeline.canConnect p s so t ti = true) ∧
      ((i.type = DataType.PARAMETERS ∨ i.type = DataType.INSTRUCTIONS) →
        Part003.canConnect p s so t ti = true)) ∧
    (∀ o : DataType,
      (areTypesCompatible o .PARAMETERS = true ↔ o = .PARAMETERS) ∧
      (areTypesCompatible o .INSTRUCTIONS = true ↔ o = .INSTRUCTIONS)) := by
  constructor
  · intro p s so t ti sn tn o i hst hedge hsn htn ho hi
    constructor
    · intro hty
      simp [UsePipeline.canConnect, hst, hedge, hsn, htn, ho, hi, hty]
    · intro hty
      rcases hty with hty | hty <;>
        simp [Part003.canConnect, hst, hedge, hsn, htn, ho, hi, hty]
  · decide

/-- Witness for the amended C2 at a concrete pipeline: an IMAGE output may
feed the PARAMETERS input of `toolCtl`, and (part_003 variant) its
INSTRUCTIONS input. -/
theorem c2_amended_universal_inputs_witness :
    UsePipeline.canConnect pipeCtl "a" "out" "b" "params" = true ∧
    Part003.canConnect pipeCtl "a" "out" "b" "instr" = true := by
  have h := c2_amended_universal_inputs.1 pipeCtl "a" "out" "b" "params"
    (mkNode "a" toolImgImg) (mkNode "b" toolCtl)
    { name := "out", type := .IMAGE }
    { name := "params", type := .PARAMETERS, required := true,
      default := none }
    (by decide) (by decide) (by decide) (by decide) (by decide) (by decide)
  have h2 := c2_amended_universal_inputs.1 pipeCtl "a" "out" "b" "instr"
    (mkNode "a" toolImgImg) (mkNode "b" toolCtl)
    { name := "out", type := .IMAGE }
    { name := "instr", type := .INSTRUCTIONS, required := true,
      default := none }
    (by decide) (by decide) (by decide) (by decide) (by decide) (by decide)
  exact ⟨h.1 rfl, h2.2 (Or.inr rfl)⟩

/-! ## C3 -/

/-- "Carries a static or connection value" for a node-input binding: a
connection binding, or a static binding whose value is defined and not the
empty string (the emptiness test the source applies). -/
def carriesStaticOrConnection : Option NodeInputValue → Bool
  | some (NodeInputValue.connection _ _) => true
  | some (NodeInputValue.static v) =>
      v != Value.vUndefined && v != Value.vStr ""
  | _ => false

theorem carriesStaticOrConnection_eq (v : Option NodeInputValue) :
    carriesStaticOrConnection v =
      ((match v with
        | some (NodeInputValue.connection _ _) => true
        | _ => false) ||
       (match v with
        | some (NodeInputValue.static w) =>
            w != Value.vUndefined && w != Value.vStr ""
        | _ => false)) := by
  cases v with
  | none => rfl
  | some val => cases val <;> rfl

theorem satisfaction_unsatisfied_iff (input : ToolInput)
    (v : Option NodeInputValue) (conns : List PipelineEdge) (name : String) :
    getInputSatisfactionStatus input v conns name =
      SatisfactionStatus.unsatisfied ↔
      (input.required = true ∧ (¬∃ e ∈ conns, e.targetInput = name) ∧
       carriesStaticOrConnection v = false ∧ input.default = none) := by
  unfold getInputSatisfactionStatus
  rw [carriesStaticOrConnection_eq]
  split_ifs with h1 h2 h3 h4 h5 <;>
    simp_all [List.any_eq_true, beq_iff_eq, Bool.not_eq_true',
      Option.isSome_iff_exists, Option.eq_none_iff_forall_not_mem]

/-- C3: `areAllRequiredInputsSatisfied` holds exactly when every required
input of the tool is covered by an incoming edge, carries a static or
connection value, or has a tool-level default; and a required input with
none of these is reported `unsatisfied` by `getInputSatisfactionStatus`. -/
theorem c3_required_input_satisfaction :
    (∀ (tool : ToolDefinition) (nodeInputs : List (String × NodeInputValue))
       (inputConnections : List PipelineEdge),
      areAllRequiredInputsSatisfied tool nodeInputs inputConnections = true ↔
        ∀ input ∈ tool.inputs, input.required = true →
          ((∃ e ∈ inputConnections, e.targetInput = input.name) ∨
           carriesStaticOrConnection (recordGet nodeInputs input.name) = true ∨
           input.default ≠ none)) ∧
    (∀ (input : ToolInput) (v : Option NodeInputValue)
       (conns : List PipelineEdge) (name : String),
      input.required = true → (¬∃ e ∈ conns, e.targetInput = name) →
      carriesStaticOrConnection v = false → input.default = none →
      getInputSatisfactionStatus input v conns name =
        SatisfactionStatus.unsatisfied) := by
  constructor
  · intro tool nodeInputs conns
    unfold areAllRequiredInputsSatisfied
    rw [List.all_eq_true]
    constructor
    · intro h input hmem hreq
      have h2 := h input hmem
      rw [bne_iff_ne, Ne, satisfaction_unsatisfied_iff] at h2
      by_contra hcon
      rw [not_or, not_or] at hcon
      exact h2 ⟨hreq, hcon.1, Bool.not_eq_true _ ▸ hcon.2.1,
        not_not.mp hcon.2.2⟩
    · intro h input hmem
      rw [bne_iff_ne, Ne, satisfaction_unsatisfied_iff]
      rintro ⟨hreq, hne, hcar, hdef⟩
      rcases h input hmem hreq with hc | hc | hc
      · exact hne hc
      · rw [hcar] at hc; exact Bool.false_ne_true hc
      · exact hc hdef
  · intro input v conns name hreq hne hcar hdef
    rw [satisfaction_unsatisfied_iff]
    exact ⟨hreq, hne, hcar, hdef⟩

/-- Witness for C3 at a concrete input: a required IMAGE input with no
edge, no value and no default is unsatisfied. -/
theorem c3_required_input_satisfaction_witness :
    getInputSatisfactionStatus
      { name := "img", type := .IMAGE, required := true, default := none }
      none [] "img" = SatisfactionStatus.unsatisfied :=
  c3_required_input_satisfaction.2
    { name := "img", type := .IMAGE, required := true, default := none }
    none [] "img" rfl (by simp) rfl rfl

/-! ## C4 -/

/-- "Each target input port has at most one incoming edge." -/
def fanInOk (p : Pipeline) : Prop :=
  p.edges.Pairwise (fun e1 e2 =>
    ¬(e1.targetNodeId = e2.targetNodeId ∧ e1.targetInput = e2.targetInput))

/-- C4: when the target input port already has an incoming edge,
`canConnect` returns false and `addEdge` returns null without touching the
state; consequently `addEdge` preserves the at-most-one-incoming-edge
invariant. -/
theorem c4_fan_in :
    (∀ (p : Pipeline) (s so t ti : String),
      (∃ e ∈ p.edges, e.targetNodeId = t ∧ e.targetInput = ti) →
      UsePipeline.canConnect p s so t ti = false ∧
      (∀ (eid : String) (es : EdgeSpec), es.targetNodeId = t →
        es.targetInput = ti → UsePipeline.addEdge p eid es = none)) ∧
    (∀ (p : Pipeline) (eid : String) (es : EdgeSpec) (p' : Pipeline),
      fanInOk p → UsePipeline.addEdge p eid es = some p' → fanInOk p') := by
  constructor
  · intro p s so t ti hex
    refine ⟨canConnect_false_of_existing hex, ?_⟩
    intro eid es h1 h2
    subst h1
    subst h2
    unfold UsePipeline.addEdge
    rw [canConnect_false_of_existing hex]
    simp
  · intro p eid es p' hfan hadd
    obtain ⟨hcc, rfl⟩ := addEdge_eq_some hadd
    have hno := canConnect_true_no_existing hcc
    unfold fanInOk UsePipeline.updateNodeInput
    rw [List.pairwise_append]
    refine ⟨hfan, List.pairwise_singleton _ _, ?_⟩
    intro a ha b hb
    rw [List.mem_singleton] at hb
    subst hb
    exact hno a ha

/-- Witness for C4 at a concrete pipeline: the occupied `b.img` port
rejects a second edge, and adding the first edge to the free pipeline keeps
the fan-in invariant. -/
theorem c4_fan_in_witness :
    UsePipeline.canConnect pipeConnected "a" "out" "b" "img" = false ∧
    UsePipeline.addEdge pipeConnected "edge_2"
      { sourceNodeId := "a", sourceOutput := "out", targetNodeId := "b",
        targetInput := "img" } = none ∧
    fanInOk pipeFreeAfter := by
  have h := c4_fan_in.1 pipeConnected "a" "out" "b" "img"
    ⟨edgeAB, List.mem_singleton.mpr rfl, rfl, rfl⟩
  refine ⟨h.1, h.2 "edge_2" _ rfl rfl, ?_⟩
  exact c4_fan_in.2 pipeFree "edge_1"
    { sourceNodeId := "a", sourceOutput := "out", targetNodeId := "b",
      targetInput := "img" } pipeFreeAfter List.Pairwise.nil (by decide)

/-! ## C9 -/

/-- C9: a self-connection is rejected by `canConnect` (both the hook and
the part_002 variant) and by `addEdge`, which returns null and performs no
state update; a two-node cycle, by contrast, is not rejected — with the
edge `a.out → b.img` in place, connecting `b.out → a.img` is still
accepted. -/
theorem c9_self_loop :
    (∀ (p : Pipeline) (nid so ti : String),
      UsePipeline.canConnect p nid so nid ti = false) ∧
    (∀ (p : Pipeline) (eid nid so ti : String),
      UsePipeline.addEdge p eid
        { sourceNodeId := nid, sourceOutput := so, targetNodeId := nid,
          targetInput := ti } = none) ∧
    (∀ (p : Pipeline) (nid : String), Part002.canConnect p nid nid = false) ∧
    UsePipeline.canConnect pipeConnected "b" "out" "a" "img" = true := by
  refine ⟨canConnect_self, ?_, ?_, by decide⟩
  · intro p eid nid so ti
    simp [UsePipeline.addEdge, canConnect_self]
  · intro p nid
    simp [Part002.canConnect]

/-! ## C5 -/

/-- An edge's node ids exist in the pipeline and its port names exist on
those nodes' tools. -/
def edgeRefsOk (p : Pipeline) (e : PipelineEdge) : Prop :=
  (∃ n ∈ p.nodes, n.id = e.sourceNodeId ∧
    ∃ o ∈ n.tool.outputs, o.name = e.sourceOutput) ∧
  (∃ n ∈ p.nodes, n.id = e.targetNodeId ∧
    ∃ i ∈ n.tool.inputs, i.name = e.targetInput)

def edgesWellFormed (p : Pipeline) : Prop := ∀ e ∈ p.edges, edgeRefsOk p e

theorem edgeRefsOk_of_nodes {p p' : Pipeline} {e : PipelineEdge}
    (h : edgeRefsOk p e)
    (hn : ∀ n ∈ p.nodes, ∃ n' ∈ p'.nodes, n'.id = n.id ∧ n'.tool = n.tool) :
    edgeRefsOk p' e := by
  obtain ⟨⟨ns, hns, hid, o, ho, hon⟩, nt, hnt, hid2, i, hi, hin⟩ := h
  obtain ⟨ns', hns', hid', htool'⟩ := hn ns hns
  obtain ⟨nt', hnt', hid2', htool2'⟩ := hn nt hnt
  exact ⟨⟨ns', hns', by rw [hid', hid], o, by rw [htool']; exact ho, hon⟩,
         nt', hnt', by rw [hid2', hid2], i, by rw [htool2']; exact hi, hin⟩

theorem updateNodeInput_nodes (p : Pipeline) (nid iname : String)
    (v : NodeInputValue) :
    ∀ n ∈ p.nodes, ∃ n' ∈ (UsePipeline.updateNodeInput p nid iname v).nodes,
      n'.id = n.id ∧ n'.tool = n.tool := by
  intro n hn
  refine ⟨if (n.id == nid) = true
      then { n with inputs := recordSet n.inputs iname v } else n,
    List.mem_map_of_mem _ hn, ?_, ?_⟩ <;> split <;> rfl

theorem addNode_wf (p : Pipeline) (nid : String) (tool : ToolDefinition)
    (pos : Position) (h : edgesWellFormed p) :
    edgesWellFormed (UsePipeline.addNode p nid tool pos) := by
  intro e he
  exact edgeRefsOk_of_nodes (h e he)
    (fun n hn => ⟨n, List.mem_append_left _ hn, rfl, rfl⟩)

theorem removeNode_wf (p : Pipeline) (nid : String) (h : edgesWellFormed p) :
    edgesWellFormed (UsePipeline.removeNode p nid) := by
  intro e he
  obtain ⟨he', hpred⟩ := List.mem_filter.mp he
  simp only [Bool.and_eq_true, Bool.not_eq_true', beq_eq_false_iff_ne,
    ne_eq] at hpred
  obtain ⟨⟨ns, hns, hid, o, ho, hon⟩, nt, hnt, hid2, i, hi, hin⟩ := h e he'
  constructor
  · refine ⟨ns, List.mem_filter.mpr ⟨hns, ?_⟩, hid, o, ho, hon⟩
    simp [hid, hpred.1]
  · refine ⟨nt, List.mem_filter.mpr ⟨hnt, ?_⟩, hid2, i, hi, hin⟩
    simp [hid2, hpred.2]

theorem addEdge_wf {p p' : Pipeline} {eid : String} {es : EdgeSpec}
    (h : edgesWellFormed p)
    (hadd : UsePipeline.addEdge p eid es = some p') :
    edgesWellFormed p' := by
  obtain ⟨hcc, rfl⟩ := addEdge_eq_some hadd
  obtain ⟨⟨sn, hsn, hsid, o, ho, hon⟩, tn, htn, htid, i, hi, hin⟩ :=
    canConnect_true_wf hcc
  have hn : ∀ n ∈ p.nodes,
      ∃ n' ∈ (UsePipeline.updateNodeInput
        { p with edges := p.edges ++
            [{ id := eid, sourceNodeId := es.sourceNodeId,
               sourceOutput := es.sourceOutput,
               targetNodeId := es.targetNodeId,
               targetInput := es.targetInput }] }
        es.targetNodeId es.targetInput
        (NodeInputValue.connection es.sourceNodeId es.sourceOutput)).nodes,
      n'.id = n.id ∧ n'.tool = n.tool :=
    fun n hnn => updateNodeInput_nodes _ _ _ _ n hnn
  intro e he
  rcases List.mem_append.mp he with he' | he'
  · exact edgeRefsOk_of_nodes (h e he') hn
  · rw [List.mem_singleton] at he'
    subst he'
    obtain ⟨sn', hsn', hsid', htool'⟩ := hn sn hsn
    obtain ⟨tn', htn', htid', htool2'⟩ := hn tn htn
    exact ⟨⟨sn', hsn', by rw [hsid', hsid], o, by rw [htool']; exact ho, hon⟩,
           tn', htn', by rw [htid', htid], i, by rw [htool2']; exact hi, hin⟩

theorem removeEdge_wf (p : Pipeline) (eid : String)
    (h : edgesWellFormed p) :
    edgesWellFormed (UsePipeline.removeEdge p eid) := by
  unfold UsePipeline.removeEdge
  cases hfind : p.edges.find? (fun e => e.id == eid) with
  | none =>
    intro e he
    obtain ⟨he', _⟩ := List.mem_filter.mp he
    exact edgeRefsOk_of_nodes (h e he') (fun n hn => ⟨n, hn, rfl, rfl⟩)
  | some edge =>
    intro e he
    obtain ⟨he', _⟩ := List.mem_filter.mp he
    exact edgeRefsOk_of_nodes (h e he')
      (fun n hn => updateNodeInput_nodes p _ _ _ n hn)

theorem removeEdgesForNode_wf (p : Pipeline) (nid : String)
    (h : edgesWellFormed p) :
    edgesWellFormed (UsePipeline.removeEdgesForNode p nid) := by
  intro e he
  obtain ⟨he', _⟩ := List.mem_filter.mp he
  exact edgeRefsOk_of_nodes (h e he') (fun n hn => ⟨n, hn, rfl, rfl⟩)

/-- C5: every pipeline-mutating operation of the editor state preserves
edge/node/port reference integrity, and `removeNode` removes every edge
incident to the removed node. -/
theorem c5_reference_integrity :
    (∀ (p : Pipeline) (nid : String) (tool : ToolDefinition)
       (pos : Position),
      edgesWellFormed p →
      edgesWellFormed (UsePipeline.addNode p nid tool pos)) ∧
    (∀ (p : Pipeline) (nid : String),
      edgesWellFormed p → edgesWellFormed (UsePipeline.removeNode p nid)) ∧
    (∀ (p : Pipeline) (eid : String) (es : EdgeSpec) (p' : Pipeline),
      edgesWellFormed p → UsePipeline.addEdge p eid es = some p' →
      edgesWellFormed p') ∧
    (∀ (p : Pipeline) (eid : String),
      edgesWellFormed p → edgesWellFormed (UsePipeline.removeEdge p eid)) ∧
    (∀ (p : Pipeline) (nid : String),
      edgesWellFormed p →
      edgesWellFormed (UsePipeline.removeEdgesForNode p nid)) ∧
    (∀ (p : Pipeline) (nid : String),
      ∀ e ∈ (UsePipeline.removeNode p nid).edges,
        e.sourceNodeId ≠ nid ∧ e.targetNodeId ≠ nid) := by
  refine ⟨addNode_wf, removeNode_wf, fun p eid es p' h hadd =>
    addEdge_wf h hadd, removeEdge_wf, removeEdgesForNode_wf, ?_⟩
  intro p nid e he
  obtain ⟨_, hpred⟩ := List.mem_filter.mp he
  simp only [Bool.and_eq_true, Bool.not_eq_true', beq_eq_false_iff_ne,
    ne_eq] at hpred
  exact hpred

/-- Witness for C5 at a concrete pipeline: adding the edge
`a.out → b.img` to the free two-node pipeline keeps reference integrity,
and removing node `a` from the connected pipeline leaves no edge touching
`a`. -/
theorem c5_reference_integrity_witness :
    edgesWellFormed pipeFreeAfter ∧
    UsePipeline.removeNode pipeConnected "a" =
      { id := "pipeline_1", name := "New Pipeline",
        nodes := [mkNode "b" toolImgImg], edges := [] } := by
  constructor
  · exact c5_reference_integrity.2.2.1 pipeFree "edge_1"
      { sourceNodeId := "a", sourceOutput := "out", targetNodeId := "b",
        targetInput := "img" } pipeFreeAfter
      (fun e he => absurd he (by simp [pipeFree])) (by decide)
  · decide

/-! ## C10 -/

/-- C10: a successful `addEdge` sets the target node's binding for the
target input to a connection referencing exactly the new edge's source
node and output; `removeEdge` of an existing edge resets that binding to a
static undefined value and leaves no edge with the removed id. -/
theorem c10_binding_consistency :
    (∀ (p : Pipeline) (eid : String) (es : EdgeSpec) (p' : Pipeline)
       (tn : PipelineNode),
      UsePipeline.addEdge p eid es = some p' →
      p'.nodes.find? (fun n => n.id == es.targetNodeId) = some tn →
      recordGet tn.inputs es.targetInput =
        some (NodeInputValue.connection es.sourceNodeId es.sourceOutput)) ∧
    (∀ (p : Pipeline) (eid : String) (edge : PipelineEdge)
       (tn : PipelineNode),
      p.edges.find? (fun e => e.id == eid) = some edge →
      ((UsePipeline.removeEdge p eid).nodes.find?
          (fun n => n.id == edge.targetNodeId) = some tn →
        recordGet tn.inputs edge.targetInput =
          some (NodeInputValue.static Value.vUndefined)) ∧
      (∀ e ∈ (UsePipeline.removeEdge p eid).edges, e.id ≠ eid)) := by
  constructor
  · intro p eid es p' tn hadd hfind
    obtain ⟨hcc, rfl⟩ := addEdge_eq_some hadd
    rw [updateNodeInput_find?_self] at hfind
    obtain ⟨tn0, hfind0, htn⟩ := Option.map_eq_some'.mp hfind
    rw [← htn]
    exact recordGet_set_self _ _ _
  · intro p eid edge tn hfind
    constructor
    · intro hfind2
      have hnodes : (UsePipeline.removeEdge p eid).nodes =
          (UsePipeline.updateNodeInput p edge.targetNodeId edge.targetInput
            (NodeInputValue.static Value.vUndefined)).nodes := by
        unfold UsePipeline.removeEdge
        rw [hfind]
      rw [hnodes, updateNodeInput_find?_self] at hfind2
      obtain ⟨tn0, hfind0, htn⟩ := Option.map_eq_some'.mp hfind2
      rw [← htn]
      exact recordGet_set_self _ _ _
    · intro e he
      obtain ⟨_, hpred⟩ := List.mem_filter.mp he
      simpa using hpred

/-- Witness for C10 at a concrete pipeline: after adding `a.out → b.img`,
`b.img` is bound to that connection; after removing `edge_1` from the
connected pipeline, `b.img` is a static undefined binding. -/
theorem c10_binding_consistency_witness :
    recordGet [("img", NodeInputValue.connection "a" "out")] "img" =
      some (NodeInputValue.connection "a" "out") ∧
    recordGet [("img", NodeInputValue.static Value.vUndefined)] "img" =
      some (NodeInputValue.static Value.vUndefined) := by
  constructor
  · exact c10_binding_consistency.1 pipeFree "edge_1"
      { sourceNodeId := "a", sourceOutput := "out", targetNodeId := "b",
        targetInput := "img" } pipeFreeAfter
      { mkNode "b" toolImgImg with
        inputs := [("img", NodeInputValue.connection "a" "out")] }
      (by decide) (by decide)
  · exact (c10_binding_consistency.2 pipeConnected "edge_1" edgeAB
      { mkNode "b" toolImgImg with
        inputs := [("img", NodeInputValue.static Value.vUndefined)] }
      (by decide)).1 (by decide)

/-! ## C8 -/

/-- A STRING producer next to a BOOL consumer, unconnected. -/
def pipeStrBool : Pipeline :=
  { id := "pipeline_1", name := "New Pipeline",
    nodes := [mkNode "a"
      { id := "t_str", name := "StrOut", category := "io", inputs := [],
        outputs := [{ name := "s_out", type := .STRING }] },
      mkNode "b"
      { id := "t_bool", name := "BoolIn", category := "ml",
        inputs := [{ name := "b_in", type := .BOOL, required := true,
                     default := none }],
        outputs := [] }],
    edges := [] }

/-- C8 as stated is false: with all fan-in/node-existence/self-loop
conditions met, the hook `canConnect` rejects `a.out (IMAGE) → b.mask
(MASK)` although `areTypesCompatible` accepts the pair, and the part_003
`canConnect` accepts `STRING → BOOL` although `areTypesCompatible` rejects
it. -/
theorem c8_counterexample :
    UsePipeline.canConnect pipeImgMask "a" "out" "b" "mask" = false ∧
    areTypesCompatible .IMAGE .MASK = true ∧
    Part003.canConnect pipeStrBool "a" "s_out" "b" "b_in" = true ∧
    areTypesCompatible .STRING .BOOL = false := by
  decide

/-- C8 amended: the three implementations disagree — under the shared
conditions the hook `canConnect` permits exactly when the output type
equals the input type or the input type is PARAMETERS, the part_003
`canConnect` always permits, and only the part_002 `canConnect` delegates
to `areTypesCompatible` (on the primary connectable ports). -/
theorem c8_amended_divergent_type_rules :
    (∀ (p : Pipeline) (s so t ti : String) (sn tn : PipelineNode)
       (o : ToolOutput) (i : ToolInput),
      (s == t) = false →
      p.edges.find? (fun e =>
        e.targetNodeId == t && e.targetInput == ti) = none →
      p.nodes.find? (fun n => n.id == s) = some sn →
      p.nodes.find? (fun n => n.id == t) = some tn →
      sn.tool.outputs.find? (fun o2 => o2.name == so) = some o →
      tn.tool.inputs.find? (fun i2 => i2.name == ti) = some i →
      UsePipeline.canConnect p s so t ti =
        (o.type == i.type || i.type == DataType.PARAMETERS) ∧
      Part003.canConnect p s so t ti = true) ∧
    (∀ (p : Pipeline) (s t : String) (sn tn : PipelineNode)
       (pout : ToolOutput) (pin : ToolInput),
      (s == t) = false →
      p.nodes.find? (fun n => n.id == s) = some sn →
      p.nodes.find? (fun n => n.id == t) = some tn →
      getPrimaryConnectableOutput sn.tool = some pout →
      getPrimaryConnectableInput tn.tool = some pin →
      p.edges.find? (fun e => e.targetNodeId == t &&
        e.targetInput == pin.name) = none →
      Part002.canConnect p s t = areTypesCompatible pout.type pin.type) := by
  constructor
  · intro p s so t ti sn tn o i hst hedge hsn htn ho hi
    constructor
    · simp [UsePipeline.canConnect, hst, hedge, hsn, htn, ho, hi]
    · simp [Part003.canConnect, hst, hedge, hsn, htn, ho, hi]
  · intro p s t sn tn pout pin hst hsn htn hpo hpi hedge
    simp [Part002.canConnect, hst, hsn, htn, hpo, hpi, hedge]

/-- Witness for the amended C8 at a concrete pipeline: on
`a.out (IMAGE) → b.mask (MASK)` the hook evaluates its own type rule (and
rejects), part_003 accepts, and part_002 returns exactly
`areTypesCompatible IMAGE MASK`. -/
theorem c8_amended_divergent_type_rules_witness :
    UsePipeline.canConnect pipeImgMask "a" "out" "b" "mask" =
      (DataType.IMAGE == DataType.MASK ||
       DataType.MASK == DataType.PARAMETERS) ∧
    Part003.canConnect pipeImgMask "a" "out" "b" "mask" = true ∧
    Part002.canConnect pipeImgMask "a" "b" =
      areTypesCompatible DataType.IMAGE DataType.MASK := by
  have h := c8_amended_divergent_type_rules.1 pipeImgMask "a" "out" "b"
    "mask" (mkNode "a" toolImgImg) (mkNode "b" toolMaskStr)
    { name := "out", type := .IMAGE }
    { name := "mask", type := .MASK, required := true, default := none }
    (by decide) (by decide) (by decide) (by decide) (by decide) (by decide)
  have h2 := c8_amended_divergent_type_rules.2 pipeImgMask "a" "b"
    (mkNode "a" toolImgImg) (mkNode "b" toolMaskStr)
    { name := "out", type := .IMAGE }
    { name := "mask", type := .MASK, required := true, default := none }
    (by decide) (by decide) (by decide) (by decide) (by decide) (by decide)
  exact ⟨h.1, h.2, h2⟩

/-! ## C7 -/

theorem buildNodeResults_untouched (l : List StepResultData) (k : String)
    (h : ∀ sr ∈ l, sr.step_id ≠ k) :
    ∀ acc, recordGet (l.foldl
        (fun a sr => recordSet a sr.step_id (Part002.convertStep sr)) acc) k =
      recordGet acc k := by
  induction l with
  | nil => intro acc; rfl
  | cons sr l ih =>
    intro acc
    rw [List.foldl_cons,
      ih (fun x hx => h x (List.mem_cons_of_mem _ hx))]
    exact recordGet_set_ne acc sr.step_id k _
      (h sr (List.mem_cons_self _ _)).symm

theorem buildNodeResults_lookup (l : List StepResultData) :
    ∀ (acc : List (String × NodeExecutionResult)) (sr : StepResultData),
      sr ∈ l → (l.map (fun sr => sr.step_id)).Nodup →
      recordGet (l.foldl
        (fun a sr => recordSet a sr.step_id (Part002.convertStep sr)) acc)
        sr.step_id = some (Part002.convertStep sr) := by
  induction l with
  | nil => intro acc sr h; cases h
  | cons x l ih =>
    intro acc sr h hnd
    rw [List.map_cons, List.nodup_cons] at hnd
    rw [List.foldl_cons]
    rcases List.mem_cons.mp h with rfl | hmem
    · rw [buildNodeResults_untouched l sr.step_id
        (fun y hy hcon => hnd.1 (hcon ▸ List.mem_map_of_mem _ hy)) _]
      exact recordGet_set_self _ _ _
    · exact ih _ sr hmem hnd.2

/-- A completed backend step result. -/
def c7step1 : StepResultData :=
  { step_id := "s1", step_name := "First", status := "completed",
    outputs := some [], error_message := none, iterations := none,
    final_iteration := none }

/-- A second step result reusing the same `step_id`. -/
def c7step2 : StepResultData := { c7step1 with step_name := "Second" }

/-- C7 as stated is false on a status response whose step results share a
`step_id`: the loop keys `nodeResults` by `step_id` and a later assignment
overwrites an earlier one, so the first step result has no entry carrying
its `step_name`. -/
theorem c7_counterexample :
    ¬((recordGet (Part002.buildNodeResults [c7step1, c7step2])
        c7step1.step_id).map (fun r => r.stepName) =
      some c7step1.step_name) := by
  decide

/-- C7 amended: provided the backend step results carry pairwise-distinct
`step_id`s, each one gets a `nodeResults` entry under its `step_id` whose
stepName, status, outputs (defaulted to the empty record when absent),
errorMessage, iterations (renamed field-by-field to camelCase) and
finalIteration are the backend fields; the overall status maps
`completed ↦ success`, `failed ↦ error`, anything else ↦ `running`. -/
theorem c7_amended_poll_mapping :
    (∀ (stepResults : List StepResultData) (sr : StepResultData),
      sr ∈ stepResults →
      (stepResults.map (fun sr => sr.step_id)).Nodup →
      recordGet (Part002.buildNodeResults stepResults) sr.step_id =
        some (Part002.convertStep sr)) ∧
    (∀ sr : StepResultData,
      (Part002.convertStep sr).stepId = sr.step_id ∧
      (Part002.convertStep sr).stepName = sr.step_name ∧
      (Part002.convertStep sr).status = sr.status ∧
      (Part002.convertStep sr).outputs = sr.outputs.getD [] ∧
      (Part002.convertStep sr).errorMessage = sr.error_message ∧
      (Part002.convertStep sr).iterations =
        sr.iterations.map (List.map Part002.convertIteration) ∧
      (Part002.convertStep sr).finalIteration = sr.final_iteration) ∧
    Part002.mapBackendStatus "completed" = "success" ∧
    Part002.mapBackendStatus "failed" = "error" ∧
    (∀ s : String, s ≠ "completed" → s ≠ "failed" →
      Part002.mapBackendStatus s = "running") := by
  refine ⟨?_, fun sr => ⟨rfl, rfl, rfl, rfl, rfl, rfl, rfl⟩, rfl, rfl, ?_⟩
  · intro stepResults sr hmem hnd
    exact buildNodeResults_lookup stepResults [] sr hmem hnd
  · intro s h1 h2
    have h1' : (s == "completed") = false := by
      rw [beq_eq_false_iff_ne]; exact h1
    have h2' : (s == "failed") = false := by
      rw [beq_eq_false_iff_ne]; exact h2
    simp [Part002.mapBackendStatus, h1', h2']

/-- Witness for the amended C7 at a concrete response with one completed
step. -/
theorem c7_amended_poll_mapping_witness :
    recordGet (Part002.buildNodeResults [c7step1]) "s1" =
      some (Part002.convertStep c7step1) ∧
    Part002.mapBackendStatus "running" = "running" := by
  constructor
  · exact c7_amended_poll_mapping.1 [c7step1] c7step1
      (List.mem_singleton.mpr rfl) (by decide)
  · exact c7_amended_poll_mapping.2.2.2.2 "running" (by decide) (by decide)

/-! ## C6 -/

theorem kahnRun_subset (edges : List (String × String)) :
    ∀ (fuel : Nat) (remaining : List String) (x : String),
      x ∈ ExecutorModel.kahnRun edges fuel remaining → x ∈ remaining := by
  intro fuel
  induction fuel with
  | zero => intro remaining x hx; cases hx
  | succ fuel ih =>
    intro remaining x hx
    simp only [ExecutorModel.kahnRun] at hx
    by_cases hempty :
        (ExecutorModel.readySet edges remaining).isEmpty = true
    · rw [if_pos hempty] at hx; cases hx
    · rw [if_neg hempty] at hx
      rcases List.mem_append.mp hx with h | h
      · exact List.mem_of_mem_filter h
      · exact List.mem_of_mem_filter (ih _ x h)

theorem kahnRun_nodup (edges : List (String × String)) :
    ∀ (fuel : Nat) (remaining : List String), remaining.Nodup →
      (ExecutorModel.kahnRun edges fuel remaining).Nodup := by
  intro fuel
  induction fuel with
  | zero => intro remaining _; exact List.Pairwise.nil
  | succ fuel ih =>
    intro remaining h
    simp only [ExecutorModel.kahnRun]
    by_cases hempty :
        (ExecutorModel.readySet edges remaining).isEmpty = true
    · rw [if_pos hempty]; exact List.Pairwise.nil
    · rw [if_neg hempty]
      rw [List.nodup_append]
      refine ⟨h.filter _, ih _ (h.filter _), ?_⟩
      intro a ha hb
      have hb' := List.mem_filter.mp (kahnRun_subset edges fuel _ a hb)
      rw [Bool.not_eq_true'] at hb'
      have : (ExecutorModel.readySet edges remaining).contains a = true := by
        simpa using ha
      rw [hb'.2] at this
      exact Bool.false_ne_true this

theorem kahnRun_producer_before (edges : List (String × String))
    (u v : String) (huv : (u, v) ∈ edges) :
    ∀ (fuel : Nat) (remaining : List String), u ∈ remaining →
      v ∈ ExecutorModel.kahnRun edges fuel remaining →
      ∃ pre post, ExecutorModel.kahnRun edges fuel remaining = pre ++ post ∧
        u ∈ pre ∧ v ∈ post := by
  intro fuel
  induction fuel with
  | zero => intro remaining _ hv; cases hv
  | succ fuel ih =>
    intro remaining hu hv
    simp only [ExecutorModel.kahnRun] at hv ⊢
    by_cases hempty :
        (ExecutorModel.readySet edges remaining).isEmpty = true
    · rw [if_pos hempty] at hv; cases hv
    · rw [if_neg hempty] at hv ⊢
      rcases List.mem_append.mp hv with hvr | hvrest
      · exfalso
        have h2 := (List.mem_filter.mp hvr).2
        unfold ExecutorModel.isReady at h2
        rw [List.all_eq_true] at h2
        have h3 := h2 (u, v) huv
        simp at h3
        exact h3 hu
      · by_cases hur : u ∈ ExecutorModel.readySet edges remaining
        · exact ⟨ExecutorModel.readySet edges remaining,
            ExecutorModel.kahnRun edges fuel _, rfl, hur, hvrest⟩
        · have hu' : u ∈ remaining.filter (fun n =>
              !((ExecutorModel.readySet edges remaining).contains n)) := by
            rw [List.mem_filter]
            refine ⟨hu, ?_⟩
            rw [Bool.not_eq_true']
            simpa using hur
          obtain ⟨pre, post, heq, hupre, hvpost⟩ := ih _ hu' hvrest
          exact ⟨ExecutorModel.readySet edges remaining ++ pre, post,
            by rw [heq, List.append_assoc],
            List.mem_append_right _ hupre, hvpost⟩

/-- C6: the run order produced by the Kahn-style Executor is a valid
topological order — for every edge (u, v) with u among the (duplicate-free)
pipeline nodes, whenever the consumer v appears in the run order it appears
strictly after its producer u. -/
theorem c6_execution_order_topological
    (nodes : List String) (edges : List (String × String)) (u v : String) :
    (u, v) ∈ edges → u ∈ nodes → nodes.Nodup →
    v ∈ ExecutorModel.executionOrder nodes edges →
    (ExecutorModel.executionOrder nodes edges).indexOf u <
      (ExecutorModel.executionOrder nodes edges).indexOf v := by
  intro huv hu hnd hv
  obtain ⟨pre, post, heq, hupre, hvpost⟩ :=
    kahnRun_producer_before edges u v huv nodes.length nodes hu hv
  have hnodup : (ExecutorModel.executionOrder nodes edges).Nodup :=
    kahnRun_nodup edges nodes.length nodes hnd
  rw [ExecutorModel.executionOrder] at hnodup ⊢
  rw [heq] at hnodup ⊢
  have hvnp : v ∉ pre := fun hc =>
    ((List.nodup_append).mp hnodup).2.2 hc hvpost
  rw [List.indexOf_append_of_mem hupre, List.indexOf_append_of_not_mem hvnp]
  calc pre.indexOf u < pre.length := List.indexOf_lt_length.mpr hupre
    _ ≤ pre.length + post.indexOf v := Nat.le_add_right _ _

/-- Witness for C6 on the concrete chain a → b → c. -/
theorem c6_execution_order_topological_witness :
    (ExecutorModel.executionOrder ["a", "b", "c"]
      [("a", "b"), ("b", "c")]).indexOf "a" <
    (ExecutorModel.executionOrder ["a", "b", "c"]
      [("a", "b"), ("b", "c")]).indexOf "b" :=
  c6_execution_order_topological ["a", "b", "c"] [("a", "b"), ("b", "c")]
    "a" "b" (by decide) (by decide) (by decide) (by decide)
